import Mathlib

/-!
Shallow embedding of the Twilio ↔ Deepgram voice-agent relay (`main.py`) and
of the function registry surface of `law_functions.py`.

Modelling conventions:
* Byte strings are `List Nat`.  The base64/JSON wire codec is applied at the
  process boundary in the source (`base64.b64decode` on ingest,
  `base64.b64encode` on egress); events in the model carry the decoded byte
  content directly, so the codec is the identity on the modelled payloads.
* Socket sends are collected into output lists, in send order; in the model a
  send always succeeds (connection-closed exceptions are part of the transport
  layer, not of the relay logic under proof).
* Python `dict.get` of a possibly-missing string field is `Option String`
  (`none` = field absent / value `None`).
-/

namespace VoiceBridge

/-- Frame size of audio forwarded to the agent socket: `BUFFER_SIZE = 20 * 160`
in `twilio_receiver` (20 ms at 8 kHz μ-law, batched ×20 = 3200 bytes). -/
def BUFFER_SIZE : Nat := 20 * 160

/-- Frame size of farewell audio sent back to Twilio: `FRAME_BYTES = 160`
in `try_send_goodbye` (20 ms at 8 kHz μ-law). -/
def FRAME_BYTES : Nat := 160

/-- The frame-slicing loop of `twilio_receiver`
(`while len(inbuffer) >= BUFFER_SIZE: chunk = inbuffer[:BUFFER_SIZE]; ...; del inbuffer[:BUFFER_SIZE]`),
written with a structural fuel argument: each iteration removes `BUFFER_SIZE > 0`
bytes, so `b.length` iterations always suffice.  Returns the emitted frames in
order together with the remaining buffer. -/
def sliceFrames : Nat → List Nat → List (List Nat) × List Nat
  | 0, b => ([], b)
  | n + 1, b =>
    if BUFFER_SIZE ≤ b.length then
      let d := sliceFrames n (List.drop BUFFER_SIZE b)
      (List.take BUFFER_SIZE b :: d.1, d.2)
    else ([], b)

/-- The drain loop of `twilio_receiver`, run after each inbound event. -/
def drainBuffer (b : List Nat) : List (List Nat) × List Nat :=
  sliceFrames b.length b

theorem sliceFrames_fuel (n m : Nat) (b : List Nat)
    (hn : b.length ≤ n) (hm : b.length ≤ m) :
    sliceFrames n b = sliceFrames m b := by
  induction n generalizing m b with
  | zero =>
    have hb : b.length = 0 := Nat.le_zero.mp hn
    cases m with
    | zero => rfl
    | succ m =>
      have : ¬ BUFFER_SIZE ≤ b.length := by
        rw [hb]; simp [BUFFER_SIZE]
      simp [sliceFrames, this]
  | succ n ih =>
    cases m with
    | zero =>
      have hb : b.length = 0 := Nat.le_zero.mp hm
      have : ¬ BUFFER_SIZE ≤ b.length := by
        rw [hb]; simp [BUFFER_SIZE]
      simp [sliceFrames, this]
    | succ m =>
      by_cases h : BUFFER_SIZE ≤ b.length
      · have hlen : (List.drop BUFFER_SIZE b).length = b.length - BUFFER_SIZE := by
          simp
        have hn' : (List.drop BUFFER_SIZE b).length ≤ n := by
          rw [hlen]; simp [BUFFER_SIZE] at h hn ⊢; omega
        have hm' : (List.drop BUFFER_SIZE b).length ≤ m := by
          rw [hlen]; simp [BUFFER_SIZE] at h hm ⊢; omega
        simp only [sliceFrames, h, if_true]
        rw [ih m (List.drop BUFFER_SIZE b) hn' hm']
      · simp [sliceFrames, h]

theorem drainBuffer_lt {b : List Nat} (h : b.length < BUFFER_SIZE) :
    drainBuffer b = ([], b) := by
  unfold drainBuffer
  cases hb : b.length with
  | zero => simp [sliceFrames]
  | succ n =>
    have : ¬ BUFFER_SIZE ≤ b.length := Nat.not_le.mpr h
    simp [sliceFrames, this]

theorem drainBuffer_ge {b : List Nat} (h : BUFFER_SIZE ≤ b.length) :
    drainBuffer b =
      (List.take BUFFER_SIZE b :: (drainBuffer (List.drop BUFFER_SIZE b)).1,
       (drainBuffer (List.drop BUFFER_SIZE b)).2) := by
  have hpos : 0 < b.length := lt_of_lt_of_le (by simp [BUFFER_SIZE]) h
  obtain ⟨n, hn⟩ : ∃ n, b.length = n + 1 := ⟨b.length - 1, by omega⟩
  have hdrop : (List.drop BUFFER_SIZE b).length ≤ n := by
    simp only [List.length_drop]
    simp [BUFFER_SIZE] at h ⊢
    omega
  unfold drainBuffer
  rw [hn]
  simp only [sliceFrames, h, if_true]
  rw [sliceFrames_fuel n (List.drop BUFFER_SIZE b).length (List.drop BUFFER_SIZE b) hdrop le_rfl]

/-- Every byte entering the drain loop comes back out: emitted frames followed by
the retained remainder reassemble the input buffer. -/
theorem drainBuffer_join (b : List Nat) :
    (drainBuffer b).1.flatten ++ (drainBuffer b).2 = b := by
  by_cases h : BUFFER_SIZE ≤ b.length
  · rw [drainBuffer_ge h]
    have ih := drainBuffer_join (List.drop BUFFER_SIZE b)
    simp only [List.flatten_cons, List.append_assoc, ih]
    exact List.take_append_drop BUFFER_SIZE b
  · rw [drainBuffer_lt (Nat.not_le.mp h)]
    simp
termination_by b.length
decreasing_by
  simp only [List.length_drop]
  simp [BUFFER_SIZE] at h ⊢
  omega

/-- The drain loop emits exactly `⌊length / BUFFER_SIZE⌋` frames. -/
theorem drainBuffer_count (b : List Nat) :
    (drainBuffer b).1.length = b.length / BUFFER_SIZE := by
  by_cases h : BUFFER_SIZE ≤ b.length
  · rw [drainBuffer_ge h]
    have ih := drainBuffer_count (List.drop BUFFER_SIZE b)
    have hpos : 0 < BUFFER_SIZE := by simp [BUFFER_SIZE]
    rw [Nat.div_eq_sub_div hpos h]
    simp only [List.length_cons, ih, List.length_drop]
  · rw [drainBuffer_lt (Nat.not_le.mp h)]
    have h0 : b.length / BUFFER_SIZE = 0 := Nat.div_eq_of_lt (Nat.not_le.mp h)
    simp [h0]
termination_by b.length
decreasing_by
  simp only [List.length_drop]
  simp [BUFFER_SIZE] at h ⊢
  omega

/-- The retained remainder has exactly `length mod BUFFER_SIZE` bytes. -/
theorem drainBuffer_rem (b : List Nat) :
    (drainBuffer b).2.length = b.length % BUFFER_SIZE := by
  by_cases h : BUFFER_SIZE ≤ b.length
  · rw [drainBuffer_ge h]
    have ih := drainBuffer_rem (List.drop BUFFER_SIZE b)
    have := Nat.mod_eq_sub_mod h
    simp only [ih, List.length_drop]
    omega
  · rw [drainBuffer_lt (Nat.not_le.mp h)]
    exact (Nat.mod_eq_of_lt (Nat.not_le.mp h)).symm
termination_by b.length
decreasing_by
  simp only [List.length_drop]
  simp [BUFFER_SIZE] at h ⊢
  omega

/-- Every emitted frame has exactly `BUFFER_SIZE` bytes. -/
theorem drainBuffer_frames (b : List Nat) :
    ∀ f ∈ (drainBuffer b).1, f.length = BUFFER_SIZE := by
  by_cases h : BUFFER_SIZE ≤ b.length
  · rw [drainBuffer_ge h]
    intro f hf
    rcases List.mem_cons.mp hf with hf | hf
    · subst hf
      simp [List.length_take, Nat.min_eq_left h]
    · exact drainBuffer_frames (List.drop BUFFER_SIZE b) f hf
  · rw [drainBuffer_lt (Nat.not_le.mp h)]
    intro f hf
    simp at hf
termination_by b.length
decreasing_by
  simp only [List.length_drop]
  simp [BUFFER_SIZE] at h ⊢
  omega

/-- Draining an already-partially-drained buffer extended with new bytes agrees
with draining the whole byte stream at once. -/
theorem drainBuffer_append (a p : List Nat) :
    drainBuffer (a ++ p) =
      ((drainBuffer a).1 ++ (drainBuffer ((drainBuffer a).2 ++ p)).1,
       (drainBuffer ((drainBuffer a).2 ++ p)).2) := by
  by_cases h : BUFFER_SIZE ≤ a.length
  · have hap : BUFFER_SIZE ≤ (a ++ p).length := by
      simp only [List.length_append]
      omega
    rw [drainBuffer_ge h, drainBuffer_ge hap]
    have htake : List.take BUFFER_SIZE (a ++ p) = List.take BUFFER_SIZE a := by
      rw [List.take_append_eq_append_take]
      have : BUFFER_SIZE - a.length = 0 := by omega
      simp [this]
    have hdrop : List.drop BUFFER_SIZE (a ++ p) = List.drop BUFFER_SIZE a ++ p := by
      rw [List.drop_append_eq_append_drop]
      have : BUFFER_SIZE - a.length = 0 := by omega
      simp [this]
    have ih := drainBuffer_append (List.drop BUFFER_SIZE a) p
    rw [htake, hdrop, ih]
    simp
  · have ha := drainBuffer_lt (Nat.not_le.mp h)
    rw [ha]
    simp
termination_by a.length
decreasing_by
  simp only [List.length_drop]
  simp [BUFFER_SIZE] at h ⊢
  omega

/-- One parsed JSON message on the Twilio socket, as discriminated by
`twilio_receiver` on `data.get("event")`.  `payload` carries the
base64-decoded bytes (`none` = field absent or empty string, which Python's
truthiness test skips). `badJson` stands for a text frame `json.loads`
rejects (the `continue` branch); `otherEvent` for any other `event` value. -/
inductive TwilioEvent
  | start (streamSid : Option String)
  | media (track : String) (payload : Option (List Nat))
  | stop
  | otherEvent
  | badJson
deriving DecidableEq

/-- State of the `twilio_receiver` loop: the byte accumulator `inbuffer`, the
frames enqueued so far onto `audio_queue` (in order), the stream ids enqueued
so far onto `streamsid_queue` (in order), and whether the loop has ended on a
`stop` event. -/
structure IngestState where
  inbuffer : List Nat
  frames : List (List Nat)
  sids : List String
  stopped : Bool
deriving DecidableEq

def IngestState.init : IngestState := ⟨[], [], [], false⟩

/-- Run the frame-slicing loop on the current accumulator, appending the
emitted frames to the queue (`audio_queue.put_nowait` in order). -/
def drainState (st : IngestState) : IngestState :=
  let d := drainBuffer st.inbuffer
  { st with inbuffer := d.2, frames := st.frames ++ d.1 }

/-- One iteration of the `twilio_receiver` event loop (`main.py` lines 145-169):
dispatch on the event, then (except on `stop`, whose `break` exits first, and
on malformed JSON, whose `continue` skips it) run the slicing loop. -/
def stepEvent (st : IngestState) (e : TwilioEvent) : IngestState :=
  if st.stopped then st
  else
    match e with
    | .start sid =>
      let st' :=
        match sid with
        | some s => if s ≠ "" then { st with sids := st.sids ++ [s] } else st
        | none => st
      drainState st'
    | .media track payload =>
      let st' :=
        if track = "inbound" ∧ payload.getD [] ≠ [] then
          { st with inbuffer := st.inbuffer ++ payload.getD [] }
        else st
      drainState st'
    | .stop => { st with stopped := true }
    | .otherEvent => drainState st
    | .badJson => st

/-- The `twilio_receiver` loop over a finite inbound message sequence. -/
def twilio_receiver (evs : List TwilioEvent) : IngestState :=
  evs.foldl stepEvent IngestState.init

/-- Inbound-track `media` event carrying decoded payload bytes `p`. -/
def mediaEvent (p : List Nat) : TwilioEvent :=
  TwilioEvent.media "inbound" (some p)

theorem stepEvent_media (st : IngestState) (hstop : st.stopped = false)
    (p : List Nat) (hbuf : st.inbuffer.length < BUFFER_SIZE) :
    stepEvent st (mediaEvent p) =
      { st with
        inbuffer := (drainBuffer (st.inbuffer ++ p)).2,
        frames := st.frames ++ (drainBuffer (st.inbuffer ++ p)).1 } := by
  rcases st with ⟨buf, F, sids, stopped⟩
  simp only at hstop hbuf
  subst hstop
  by_cases hp : p = []
  · subst hp
    simp [stepEvent, mediaEvent, drainState, drainBuffer_lt hbuf]
  · simp [stepEvent, mediaEvent, drainState, hp]

/-- Processing a run of inbound `media` events starting from a partially-filled
accumulator is the same as draining the whole concatenated byte stream. -/
theorem twilio_receiver_media_fold (ps : List (List Nat)) (F : List (List Nat))
    (r : List Nat) (sids : List String) (hr : r.length < BUFFER_SIZE) :
    List.foldl stepEvent ⟨r, F, sids, false⟩ (ps.map mediaEvent) =
      ⟨(drainBuffer (r ++ ps.flatten)).2, F ++ (drainBuffer (r ++ ps.flatten)).1,
        sids, false⟩ := by
  induction ps generalizing F r with
  | nil =>
    simp [drainBuffer_lt hr]
  | cons p ps ih =>
    simp only [List.map_cons, List.foldl_cons]
    rw [stepEvent_media ⟨r, F, sids, false⟩ rfl p hr]
    simp only
    have hrem : (drainBuffer (r ++ p)).2.length < BUFFER_SIZE := by
      rw [drainBuffer_rem]
      exact Nat.mod_lt _ (by simp [BUFFER_SIZE])
    rw [ih (F ++ (drainBuffer (r ++ p)).1) (drainBuffer (r ++ p)).2 hrem]
    have happ := drainBuffer_append (r ++ p) ps.flatten
    simp only [List.flatten_cons, ← List.append_assoc, happ]

/-- C1: For every sequence of inbound `media` events with decoded payloads `ps`
totalling `L` bytes, `twilio_receiver` enqueues exactly `⌊L / BUFFER_SIZE⌋`
frames, each of exactly `BUFFER_SIZE` (3200) bytes, whose concatenation is the
first `BUFFER_SIZE * ⌊L / BUFFER_SIZE⌋` input bytes in order, with the
remaining `L % BUFFER_SIZE` bytes retained in the accumulator. -/
theorem twilio_receiver_frame_assembly (ps : List (List Nat)) :
    (twilio_receiver (ps.map mediaEvent)).frames.length =
      ps.flatten.length / BUFFER_SIZE ∧
    (∀ f ∈ (twilio_receiver (ps.map mediaEvent)).frames, f.length = BUFFER_SIZE) ∧
    (twilio_receiver (ps.map mediaEvent)).frames.flatten =
      ps.flatten.take (BUFFER_SIZE * (ps.flatten.length / BUFFER_SIZE)) ∧
    (twilio_receiver (ps.map mediaEvent)).inbuffer =
      ps.flatten.drop (BUFFER_SIZE * (ps.flatten.length / BUFFER_SIZE)) ∧
    (twilio_receiver (ps.map mediaEvent)).inbuffer.length =
      ps.flatten.length % BUFFER_SIZE := by
  set B := ps.flatten with hB
  have hrun : twilio_receiver (ps.map mediaEvent) =
      ⟨(drainBuffer B).2, (drainBuffer B).1, [], false⟩ := by
    unfold twilio_receiver IngestState.init
    have := twilio_receiver_media_fold ps [] [] [] (by simp [BUFFER_SIZE])
    simpa [hB] using this
  have hjoin := drainBuffer_join B
  have hcount := drainBuffer_count B
  have hrem := drainBuffer_rem B
  have hframes := drainBuffer_frames B
  have hflatlen : (drainBuffer B).1.flatten.length = BUFFER_SIZE * (B.length / BUFFER_SIZE) := by
    have h1 : (drainBuffer B).1.flatten.length + (drainBuffer B).2.length = B.length := by
      rw [← List.length_append, hjoin]
    have h2 := Nat.div_add_mod B.length BUFFER_SIZE
    omega
  rw [hrun]
  refine ⟨hcount, hframes, ?_, ?_, hrem⟩
  · show (drainBuffer B).1.flatten = B.take (BUFFER_SIZE * (B.length / BUFFER_SIZE))
    have ht := List.take_left ((drainBuffer B).1.flatten) ((drainBuffer B).2)
    rw [hjoin, hflatlen] at ht
    exact ht.symm
  · show (drainBuffer B).2 = B.drop (BUFFER_SIZE * (B.length / BUFFER_SIZE))
    have hd := List.drop_left ((drainBuffer B).1.flatten) ((drainBuffer B).2)
    rw [hjoin, hflatlen] at hd
    exact hd.symm

/-- Witness for C1 at the spec's concrete scenario: 4000 bytes of inbound
audio across 3 `media` events yield exactly `4000 / 3200 = 1` full frame with
`4000 % 3200 = 800` bytes retained. -/
theorem twilio_receiver_frame_assembly_w :
    (twilio_receiver
        ([List.replicate 2000 1, List.replicate 1500 2, List.replicate 500 3].map
          mediaEvent)).frames.length =
      ([List.replicate 2000 1, List.replicate 1500 2, List.replicate 500 3] :
        List (List Nat)).flatten.length / BUFFER_SIZE ∧
    (∀ f ∈ (twilio_receiver
        ([List.replicate 2000 1, List.replicate 1500 2, List.replicate 500 3].map
          mediaEvent)).frames, f.length = BUFFER_SIZE) ∧
    (twilio_receiver
        ([List.replicate 2000 1, List.replicate 1500 2, List.replicate 500 3].map
          mediaEvent)).frames.flatten =
      ([List.replicate 2000 1, List.replicate 1500 2, List.replicate 500 3] :
        List (List Nat)).flatten.take
        (BUFFER_SIZE *
          (([List.replicate 2000 1, List.replicate 1500 2, List.replicate 500 3] :
            List (List Nat)).flatten.length / BUFFER_SIZE)) ∧
    (twilio_receiver
        ([List.replicate 2000 1, List.replicate 1500 2, List.replicate 500 3].map
          mediaEvent)).inbuffer =
      ([List.replicate 2000 1, List.replicate 1500 2, List.replicate 500 3] :
        List (List Nat)).flatten.drop
        (BUFFER_SIZE *
          (([List.replicate 2000 1, List.replicate 1500 2, List.replicate 500 3] :
            List (List Nat)).flatten.length / BUFFER_SIZE)) ∧
    (twilio_receiver
        ([List.replicate 2000 1, List.replicate 1500 2, List.replicate 500 3].map
          mediaEvent)).inbuffer.length =
      ([List.replicate 2000 1, List.replicate 1500 2, List.replicate 500 3] :
        List (List Nat)).flatten.length % BUFFER_SIZE :=
  twilio_receiver_frame_assembly
    [List.replicate 2000 1, List.replicate 1500 2, List.replicate 500 3]

/-- One entry of a `FunctionCallRequest.functions` list: the fields
`handle_function_call_request` reads via `function_call.get(...)`
(`none` = field absent). -/
structure Invocation where
  name : Option String
  id : Option String
  arguments : Option String
deriving DecidableEq

/-- Result of `json.loads` on an `arguments` text: an empty JSON object, some
other JSON object (contents opaque to the relay), or a non-object JSON value
(on which Python's `**`-unpacking at the call site raises). -/
inductive JArgs
  | emptyObj
  | objOther (tag : Nat)
  | nonObject (tag : Nat)
deriving DecidableEq

/-- Behaviour of one external business function from `FUNCTION_MAP` on a given
argument object: it returns a value (recorded here already JSON-serialized, as
`create_function_call_response` applies `json.dumps` to it) or raises. -/
inductive FnOutcome
  | ok (dumped : String)
  | raises (msg : String)
deriving DecidableEq

/-- External collaborators of the dispatcher: the Python stdlib `json.loads`
(`.error` = `json.JSONDecodeError`, carrying `str(e)`) and the bodies of the
registered business functions of `law_functions.py` (database, email, calendar
side effects — opaque to the relay). -/
structure DispatchEnv where
  jsonLoads : String → Except String JArgs
  impl : String → JArgs → FnOutcome

/-- The key set of `FUNCTION_MAP` in `law_functions.py` (lines 656-678). -/
def FUNCTION_MAP_keys : List String :=
  ["practice_area", "contact_information", "intake_answers_qualification",
   "practice_area_attorney_name", "calendar_booking",
   "reschedule_calendar_booking", "terms_of_engagement_letter", "send_email",
   "create_or_get_caller_id", "upsert_lead_information", "save_lead_qa",
   "save_lead_booking", "get_practice_area_questions",
   "get_next_available_slots", "check_slot_and_alternatives",
   "get_current_datetime"]

/-- Rendering of an `Option String` inside a Python f-string
(`None` prints as `None`). -/
def fmtPyOpt : Option String → String
  | some s => s
  | none => "None"

/-- Python `json.dumps` on a one-key error dictionary (default separators):
the braces are written with string escapes. -/
def dumpsErrorObj (msg : String) : String :=
  "\x7b\"error\": \"" ++ msg ++ "\"\x7d"

/-- Outcome of one `execute_function_call` call: the serialized result content,
or a raised exception (message = `str(e)`). -/
inductive ExecResult
  | done (content : String)
  | raised (msg : String)
deriving DecidableEq

/-- `execute_function_call` (`main.py` lines 53-60): a registered name invokes
the business function (whose `**arguments` unpacking and body may raise); an
unregistered name — including `None` — returns an `Unknown function` error
dictionary instead of raising. -/
def execute_function_call (env : DispatchEnv) (funcName : Option String)
    (args : JArgs) : ExecResult :=
  match funcName with
  | some n =>
    if n ∈ FUNCTION_MAP_keys then
      match args with
      | .nonObject _ => .raised "argument after ** must be a mapping"
      | _ =>
        match env.impl n args with
        | .ok d => .done d
        | .raises m => .raised m
    else .done (dumpsErrorObj ("Unknown function: " ++ n))
  | none => .done (dumpsErrorObj ("Unknown function: " ++ fmtPyOpt none))

/-- The argument text handed to `json.loads`
(`function_call.get("arguments", "{}") or "{}"`): the literal empty-object
text when the field is absent or its value is falsy (empty string). -/
def argTextOf (inv : Invocation) : String :=
  match inv.arguments with
  | none => "\x7b\x7d"
  | some s => if s = "" then "\x7b\x7d" else s

/-- Processing of one invocation inside the `try` of
`handle_function_call_request` (lines 75-80): parse the arguments (may raise),
then run `execute_function_call` (may raise). -/
def invOutcome (env : DispatchEnv) (inv : Invocation) : ExecResult :=
  match env.jsonLoads (argTextOf inv) with
  | .error e => .raised e
  | .ok args => execute_function_call env inv.name args

/-- `FunctionCallResponse` message as built by `create_function_call_response`
(lines 63-69); `content` is the `json.dumps`-serialized result. -/
structure FunctionCallResponse where
  id : Option String
  name : Option String
  content : String
deriving DecidableEq

def create_function_call_response (funcId funcName : Option String)
    (content : String) : FunctionCallResponse :=
  ⟨funcId, funcName, content⟩

/-- The fallback response of the `except` clause (lines 83-87): id and name
come from the last-bound `function_call` when the loop variable exists in
`locals()` (missing fields default to `"unknown"`), else the `"unknown"`
sentinels. -/
def fallbackResponse (lastFc : Option Invocation) (emsg : String) :
    FunctionCallResponse :=
  { id := some ((Option.bind lastFc Invocation.id).getD "unknown"),
    name := some ((Option.bind lastFc Invocation.name).getD "unknown"),
    content := dumpsErrorObj ("Function call failed with: " ++ emsg) }

/-- The `for function_call in decoded.get("functions", [])` loop under `try`:
each successful invocation sends its response and processing continues; the
first raising invocation sends the single fallback response and ends the loop
(the exception lands in the `except` clause with `function_call` bound to the
failing entry). -/
def dispatchLoop (env : DispatchEnv) : List Invocation → List FunctionCallResponse
  | [] => []
  | inv :: rest =>
    match invOutcome env inv with
    | .raised m => [fallbackResponse (some inv) m]
    | .done content =>
      create_function_call_response inv.id inv.name content :: dispatchLoop env rest

/-- Shape of `decoded.get("functions", [])`: field absent (default `[]`), a
proper list of invocation dicts, or a non-iterable value on which the `for`
raises `TypeError` before binding the loop variable. -/
inductive FunctionsField
  | absentField
  | invList (l : List Invocation)
  | notIterable (emsg : String)
deriving DecidableEq

/-- A parsed agent text message as read by `handle_text_message` and
`handle_function_call_request`: its `type` tag and its `functions` field. -/
structure Decoded where
  type : Option String
  functions : FunctionsField
deriving DecidableEq

/-- `handle_function_call_request` (lines 72-91): the loop over the functions
list, with the malformed-list path producing the sentinel fallback (the loop
variable is unbound, so `"function_call" in locals()` is false). -/
def handle_function_call_request (env : DispatchEnv) (d : Decoded) :
    List FunctionCallResponse :=
  match d.functions with
  | .absentField => []
  | .invList l => dispatchLoop env l
  | .notIterable m => [fallbackResponse none m]

/-- Outbound JSON envelopes on the Twilio socket (§6 of the transport
protocol); `media` carries the bytes that the source base64-encodes into the
envelope. -/
inductive TwilioOut
  | media (streamSid : String) (payload : List Nat)
  | clear (streamSid : String)
  | mark (streamSid : String) (markName : String)
deriving DecidableEq

/-- A message sent by the session, tagged by destination socket, so that send
order across both sockets is preserved in one trace. -/
inductive RelayOut
  | toTwilio (o : TwilioOut)
  | toSts (r : FunctionCallResponse)
deriving DecidableEq

/-- `handle_barge_in` (lines 48-50). -/
def handle_barge_in (d : Decoded) (streamsid : String) : List TwilioOut :=
  if d.type = some "UserStartedSpeaking" then [TwilioOut.clear streamsid] else []

/-- `handle_text_message` (lines 94-97): barge-in check first, then function
dispatch if the message is a `FunctionCallRequest`. -/
def handle_text_message (env : DispatchEnv) (d : Decoded) (streamsid : String) :
    List RelayOut :=
  (handle_barge_in d streamsid).map RelayOut.toTwilio ++
    (if d.type = some "FunctionCallRequest" then
      (handle_function_call_request env d).map RelayOut.toSts
    else [])

/-- One message on the agent socket: binary audio, unparseable text
(`json.JSONDecodeError` → `continue`), or parsed JSON text. -/
inductive StsMsg
  | binary (payload : List Nat)
  | textBadJson
  | text (d : Decoded)
deriving DecidableEq

/-- One iteration of the `sts_receiver` message loop (lines 118-132): binary
audio is wrapped in a `media` envelope for the current stream id; text is
parsed and dispatched. -/
def sts_receiver_step (env : DispatchEnv) (streamsid : String) (m : StsMsg) :
    List RelayOut :=
  match m with
  | .binary bs => [RelayOut.toTwilio (TwilioOut.media streamsid bs)]
  | .textBadJson => []
  | .text d => handle_text_message env d streamsid

/-- The `sts_receiver` loop over a finite agent message sequence, after the
stream id has been obtained from the handoff queue. -/
def sts_receiver (env : DispatchEnv) (streamsid : String) (msgs : List StsMsg) :
    List RelayOut :=
  (msgs.map (sts_receiver_step env streamsid)).flatten

/-- A concrete external environment for evaluating the dispatcher on closed
inputs: `json.loads` accepts only the empty-object text, every registered
function returns the serialized `null`. -/
def sampleEnv : DispatchEnv :=
  { jsonLoads := fun s =>
      if s = "\x7b\x7d" then Except.ok JArgs.emptyObj
      else Except.error ("Expecting value: line 1 column 1 (char 0)"),
    impl := fun _ _ => FnOutcome.ok "null" }

/-- A concrete external environment in which the registered business function
`send_email` raises. -/
def boomEnv : DispatchEnv :=
  { jsonLoads := fun s =>
      if s = "\x7b\x7d" then Except.ok JArgs.emptyObj
      else Except.error ("Expecting value: line 1 column 1 (char 0)"),
    impl := fun n _ =>
      if n = "send_email" then FnOutcome.raises "SMTP down" else FnOutcome.ok "null" }

/-- An invocation whose registered function raises under `boomEnv`. -/
def invBoom : Invocation := ⟨some "send_email", some "id1", none⟩

/-- A benign invocation of a registered function. -/
def invCal : Invocation := ⟨some "get_current_datetime", some "id2", none⟩

/-- True iff processing the invocation raises no exception (its arguments
parse and, if its name is registered, the function returns). -/
def invocationOk (env : DispatchEnv) (inv : Invocation) : Bool :=
  match invOutcome env inv with
  | .done _ => true
  | .raised _ => false

/-- C2 counterexample: a `FunctionCallRequest` with N = 2 invocations whose
first invocation's registered function raises yields one single fallback
response, not 2 responses — the raised exception ends the dispatch loop, so
the second invocation is never answered. -/
theorem dispatch_reply_count_cx :
    handle_function_call_request boomEnv
        ⟨some "FunctionCallRequest", FunctionsField.invList [invBoom, invCal]⟩ =
      [fallbackResponse (some invBoom) "SMTP down"] ∧
    ([fallbackResponse (some invBoom) "SMTP down"]).length ≠
      ([invBoom, invCal] : List Invocation).length := by
  constructor
  · rfl
  · decide

/-- C2 (amended): for every `FunctionCallRequest` whose N invocations all
process without a raised exception — arguments parse and no registered
function raises; unregistered names are included, as they yield error-content
responses without raising — the dispatcher sends exactly N
`FunctionCallResponse` messages, the i-th echoing the i-th invocation's id and
name verbatim. -/
theorem dispatch_reply_count (env : DispatchEnv) (t : Option String)
    (l : List Invocation) (h : ∀ inv ∈ l, invocationOk env inv = true) :
    (handle_function_call_request env ⟨t, FunctionsField.invList l⟩).length = l.length ∧
    (handle_function_call_request env ⟨t, FunctionsField.invList l⟩).map
        (fun r => (r.id, r.name)) =
      l.map (fun inv => (inv.id, inv.name)) := by
  simp only [handle_function_call_request]
  induction l with
  | nil => exact ⟨rfl, rfl⟩
  | cons inv rest ih =>
    have hinv := h inv (List.mem_cons_self inv rest)
    have hrest := ih (fun i hi => h i (List.mem_cons_of_mem inv hi))
    unfold invocationOk at hinv
    rcases ho : invOutcome env inv with c | m
    · simp only [dispatchLoop, ho, List.length_cons, List.map_cons,
        create_function_call_response]
      exact ⟨by rw [hrest.1], by rw [hrest.2]⟩
    · rw [ho] at hinv
      simp at hinv

/-- Witness for (amended) C2 at a concrete input: two invocations — one
registered, one unregistered — both processed without exception, yield two
responses echoing ids and names. -/
theorem dispatch_reply_count_w :
    (handle_function_call_request sampleEnv
        ⟨some "FunctionCallRequest",
          FunctionsField.invList [invCal, ⟨some "unknown_fn", some "b7", some ""⟩]⟩).length =
      ([invCal, ⟨some "unknown_fn", some "b7", some ""⟩] : List Invocation).length ∧
    (handle_function_call_request sampleEnv
        ⟨some "FunctionCallRequest",
          FunctionsField.invList [invCal, ⟨some "unknown_fn", some "b7", some ""⟩]⟩).map
        (fun r => (r.id, r.name)) =
      ([invCal, ⟨some "unknown_fn", some "b7", some ""⟩] : List Invocation).map
        (fun inv => (inv.id, inv.name)) :=
  dispatch_reply_count sampleEnv (some "FunctionCallRequest")
    [invCal, ⟨some "unknown_fn", some "b7", some ""⟩] (by decide)

/-- C4: a parsed agent text message with `type == UserStartedSpeaking` makes
`sts_receiver` emit exactly one outbound `clear` envelope carrying the
session's stream id, positioned in the send trace after everything produced
for earlier messages and before everything produced for later ones (in
particular before any audio relayed after that text message). -/
theorem barge_in_clear (env : DispatchEnv) (streamsid : String)
    (pre post : List StsMsg) (d : Decoded)
    (h : d.type = some "UserStartedSpeaking") :
    sts_receiver env streamsid (pre ++ StsMsg.text d :: post) =
      sts_receiver env streamsid pre ++
        RelayOut.toTwilio (TwilioOut.clear streamsid) ::
          sts_receiver env streamsid post := by
  unfold sts_receiver
  simp [sts_receiver_step, handle_text_message, handle_barge_in, h]

/-- Witness for C4 at a concrete input: audio before, `UserStartedSpeaking`,
audio after — the single `clear` sits between the two relayed audio frames. -/
theorem barge_in_clear_w :
    sts_receiver sampleEnv "SID123"
        ([StsMsg.binary [7]] ++
          StsMsg.text ⟨some "UserStartedSpeaking", FunctionsField.absentField⟩ ::
            [StsMsg.binary [9]]) =
      sts_receiver sampleEnv "SID123" [StsMsg.binary [7]] ++
        RelayOut.toTwilio (TwilioOut.clear "SID123") ::
          sts_receiver sampleEnv "SID123" [StsMsg.binary [9]] :=
  barge_in_clear sampleEnv "SID123" [StsMsg.binary [7]] [StsMsg.binary [9]]
    ⟨some "UserStartedSpeaking", FunctionsField.absentField⟩ rfl

/-- An invocation whose `arguments` text does not parse as JSON. -/
def invBadArgs : Invocation := ⟨some "get_current_datetime", some "x9", some "notjson"⟩

/-- C6 counterexample: an invocation whose `arguments` text fails to parse is
not dispatched with an empty object — the `json.loads` exception aborts the
whole loop and produces one fallback error response, and the following
invocation is never processed (the claim predicts 2 normal responses here). -/
theorem args_parse_default_cx :
    handle_function_call_request sampleEnv
        ⟨some "FunctionCallRequest", FunctionsField.invList [invBadArgs, invCal]⟩ =
      [fallbackResponse (some invBadArgs) "Expecting value: line 1 column 1 (char 0)"] ∧
    (handle_function_call_request sampleEnv
        ⟨some "FunctionCallRequest", FunctionsField.invList [invBadArgs, invCal]⟩).length ≠ 2 := by
  constructor
  · rfl
  · intro hc
    simp [handle_function_call_request, dispatchLoop, invOutcome, sampleEnv,
      argTextOf, invBadArgs] at hc

/-- C6 (amended): the dispatcher substitutes the empty-object text only when
the `arguments` field is absent or its value is the empty string; when a
non-empty `arguments` text fails to parse as JSON, processing of the request
is aborted at that invocation and one fallback error response (echoing the
failing invocation) is sent instead — the invocation's function is never
called and no later invocation is processed. -/
theorem args_parse_default (env : DispatchEnv) (inv : Invocation)
    (rest : List Invocation) :
    ((inv.arguments = none ∨ inv.arguments = some "") →
      argTextOf inv = "\x7b\x7d") ∧
    (∀ e, env.jsonLoads (argTextOf inv) = Except.error e →
      dispatchLoop env (inv :: rest) = [fallbackResponse (some inv) e]) := by
  constructor
  · rintro (h | h) <;> simp [argTextOf, h]
  · intro e he
    simp [dispatchLoop, invOutcome, he]

/-- Witness for (amended) C6 at concrete inputs: an absent `arguments` field
maps to the empty-object text, and a non-parsing `arguments` text aborts the
request with one fallback response. -/
theorem args_parse_default_w :
    argTextOf invCal = "\x7b\x7d" ∧
    dispatchLoop sampleEnv (invBadArgs :: [invCal]) =
      [fallbackResponse (some invBadArgs) "Expecting value: line 1 column 1 (char 0)"] :=
  ⟨(args_parse_default sampleEnv invCal []).1 (Or.inl rfl),
   (args_parse_default sampleEnv invBadArgs [invCal]).2
     "Expecting value: line 1 column 1 (char 0)" rfl⟩

/-- C7: when the `functions` list itself is malformed (iterating it raises
before any entry is bound), the dispatcher sends exactly one fallback
`FunctionCallResponse` whose id and name are the sentinel `"unknown"` and
whose content is an error payload. -/
theorem malformed_list_fallback (env : DispatchEnv) (d : Decoded) (m : String)
    (h : d.functions = FunctionsField.notIterable m) :
    handle_function_call_request env d =
      [⟨some "unknown", some "unknown",
        dumpsErrorObj ("Function call failed with: " ++ m)⟩] := by
  rcases d with ⟨t, fns⟩
  simp only at h
  subst h
  simp [handle_function_call_request, fallbackResponse, Option.bind]

/-- Witness for C7 at a concrete input. -/
theorem malformed_list_fallback_w :
    handle_function_call_request sampleEnv
        ⟨some "FunctionCallRequest",
          FunctionsField.notIterable "'int' object is not iterable"⟩ =
      [⟨some "unknown", some "unknown",
        dumpsErrorObj
          ("Function call failed with: " ++ "'int' object is not iterable")⟩] :=
  malformed_list_fallback sampleEnv
    ⟨some "FunctionCallRequest",
      FunctionsField.notIterable "'int' object is not iterable"⟩
    "'int' object is not iterable" rfl

/-- C9: an invocation whose name `n` is not a `FUNCTION_MAP` key and whose
arguments parse yields exactly its own `FunctionCallResponse`, echoing the
invocation's id and name, with content the serialized
`\x7b"error": "Unknown function: n"\x7d` dictionary, and dispatch continues
with the remaining invocations. -/
theorem unknown_function_response (env : DispatchEnv) (inv : Invocation)
    (rest : List Invocation) (n : String) (hn : inv.name = some n)
    (hreg : n ∉ FUNCTION_MAP_keys) (args : JArgs)
    (hargs : env.jsonLoads (argTextOf inv) = Except.ok args) :
    dispatchLoop env (inv :: rest) =
      create_function_call_response inv.id inv.name
          (dumpsErrorObj ("Unknown function: " ++ n)) ::
        dispatchLoop env rest := by
  simp [dispatchLoop, invOutcome, hargs, execute_function_call, hn, hreg]

/-- Witness for C9 at the spec's concrete scenario: the invocation
`name = "unknown_fn", id = "x1", arguments = "\x7b\x7d"` alone in the list
yields exactly one response with id `x1`, name `unknown_fn`, and the
`Unknown function: unknown_fn` error content. -/
theorem unknown_function_response_w :
    dispatchLoop sampleEnv [⟨some "unknown_fn", some "x1", some "\x7b\x7d"⟩] =
      create_function_call_response (some "x1") (some "unknown_fn")
          (dumpsErrorObj ("Unknown function: " ++ "unknown_fn")) ::
        dispatchLoop sampleEnv [] :=
  unknown_function_response sampleEnv ⟨some "unknown_fn", some "x1", some "\x7b\x7d"⟩
    [] "unknown_fn" rfl (by decide) JArgs.emptyObj rfl

/-- The stream id a `start` event publishes to the handoff queue, if any:
`data.get("start", {}).get("streamSid")` followed by the `if streamsid:`
truthiness guard. -/
def startSidOf : TwilioEvent → Option String
  | .start (some s) => if s ≠ "" then some s else none
  | _ => none

/-- The stream ids `twilio_receiver` enqueues onto `streamsid_queue`, in
order: one per `start` event carrying a truthy id, up to the first `stop`. -/
def enqueuedSids : List TwilioEvent → List String
  | [] => []
  | e :: rest =>
    match e with
    | .stop => []
    | _ => (startSidOf e).toList ++ enqueuedSids rest

theorem stepEvent_of_stopped (st : IngestState) (e : TwilioEvent)
    (h : st.stopped = true) : stepEvent st e = st := by
  simp [stepEvent, h]

theorem foldl_stepEvent_of_stopped (evs : List TwilioEvent) (st : IngestState)
    (h : st.stopped = true) : List.foldl stepEvent st evs = st := by
  induction evs with
  | nil => rfl
  | cons e rest ih => rw [List.foldl_cons, stepEvent_of_stopped st e h, ih]

theorem foldl_stepEvent_sids (evs : List TwilioEvent) (st : IngestState)
    (h : st.stopped = false) :
    (List.foldl stepEvent st evs).sids = st.sids ++ enqueuedSids evs := by
  induction evs generalizing st with
  | nil => simp [enqueuedSids]
  | cons e rest ih =>
    cases e with
    | start sid =>
      cases sid with
      | none =>
        rw [List.foldl_cons]
        rw [show stepEvent st (TwilioEvent.start none) = drainState st by
          simp [stepEvent, h]]
        rw [ih (drainState st) (by simp [drainState, h])]
        simp [drainState, enqueuedSids, startSidOf]
      | some s =>
        by_cases hs : s = ""
        · subst hs
          rw [List.foldl_cons]
          rw [show stepEvent st (TwilioEvent.start (some "")) = drainState st by
            simp [stepEvent, h]]
          rw [ih (drainState st) (by simp [drainState, h])]
          simp [drainState, enqueuedSids, startSidOf]
        · rw [List.foldl_cons]
          rw [show stepEvent st (TwilioEvent.start (some s)) =
              drainState { st with sids := st.sids ++ [s] } by
            simp [stepEvent, h, hs]]
          rw [ih _ (by simp [drainState, h])]
          simp [drainState, enqueuedSids, startSidOf, hs]
    | media track payload =>
      rw [List.foldl_cons]
      have hstep : (stepEvent st (TwilioEvent.media track payload)).sids = st.sids ∧
          (stepEvent st (TwilioEvent.media track payload)).stopped = false := by
        simp only [stepEvent, h]
        by_cases hc : track = "inbound" ∧ payload.getD [] ≠ []
        · simp [hc, drainState]
        · simp [hc, drainState, h]
      rcases hmu : stepEvent st (TwilioEvent.media track payload) with ⟨b', F', sids', stopped'⟩
      rw [hmu] at hstep
      simp only at hstep
      rw [ih _ hstep.2]
      simp [hstep.1, enqueuedSids, startSidOf]
    | stop =>
      rw [List.foldl_cons]
      rw [show stepEvent st TwilioEvent.stop = { st with stopped := true } by
        simp [stepEvent, h]]
      rw [foldl_stepEvent_of_stopped rest _ rfl]
      simp [enqueuedSids]
    | otherEvent =>
      rw [List.foldl_cons]
      rw [show stepEvent st TwilioEvent.otherEvent = drainState st by
        simp [stepEvent, h]]
      rw [ih (drainState st) (by simp [drainState, h])]
      simp [drainState, enqueuedSids, startSidOf]
    | badJson =>
      rw [List.foldl_cons]
      rw [show stepEvent st TwilioEvent.badJson = st by simp [stepEvent, h]]
      rw [ih st h]
      simp [enqueuedSids, startSidOf]

theorem enqueuedSids_append (pre evs : List TwilioEvent)
    (hpre : ∀ e ∈ pre, startSidOf e = none ∧ e ≠ TwilioEvent.stop) :
    enqueuedSids (pre ++ evs) = enqueuedSids evs := by
  induction pre with
  | nil => simp
  | cons e p ih =>
    have he := hpre e (List.mem_cons_self e p)
    have hp : ∀ x ∈ p, startSidOf x = none ∧ x ≠ TwilioEvent.stop :=
      fun x hx => hpre x (List.mem_cons_of_mem e hx)
    cases e with
    | start sid => simp [enqueuedSids, he.1, ih hp]
    | media track payload => simp [enqueuedSids, startSidOf, ih hp]
    | stop => exact absurd rfl he.2
    | otherEvent => simp [enqueuedSids, startSidOf, ih hp]
    | badJson => simp [enqueuedSids, startSidOf, ih hp]

/-- C8 counterexample: two `start` events each carrying a stream id make
`twilio_receiver` enqueue two tokens onto the handoff queue — the publish is
per `start` event, not "exactly once" per session. -/
theorem stream_token_single_publish_cx :
    (twilio_receiver
        [TwilioEvent.start (some "A"), TwilioEvent.start (some "B")]).sids =
      ["A", "B"] ∧
    (twilio_receiver
        [TwilioEvent.start (some "A"), TwilioEvent.start (some "B")]).sids.length ≠ 1 := by
  decide

/-- The stream token the Agent Event Receiver ends up using: `sts_receiver`
performs a single `await streamsid_queue.get()` before its relay loop, which
removes and returns the first enqueued token. -/
def receiverToken (evs : List TwilioEvent) : Option String :=
  (twilio_receiver evs).sids.head?

/-- C8 (amended): `twilio_receiver` enqueues one token per `start` event that
carries a truthy stream id (so a repeated `start` publishes again rather than
exactly once); the Agent Event Receiver reads exactly one token from the
handoff — the one from the first such `start` event — so later `start` events
do not change the token it uses for outbound media/clear/mark events. -/
theorem stream_token_first_wins (pre post : List TwilioEvent) (s : String)
    (hs : s ≠ "")
    (hpre : ∀ e ∈ pre, startSidOf e = none ∧ e ≠ TwilioEvent.stop) :
    receiverToken (pre ++ TwilioEvent.start (some s) :: post) = some s := by
  unfold receiverToken twilio_receiver
  rw [foldl_stepEvent_sids _ _ rfl]
  rw [show (IngestState.init).sids = [] from rfl]
  rw [enqueuedSids_append pre _ hpre]
  simp [enqueuedSids, startSidOf, hs]

/-- Witness for (amended) C8 at a concrete input: token `SID123` from the
first `start` is the one the receiver uses, despite a later `start` with a
different id. -/
theorem stream_token_first_wins_w :
    receiverToken
        ([mediaEvent [1]] ++
          TwilioEvent.start (some "SID123") :: [TwilioEvent.start (some "B")]) =
      some "SID123" :=
  stream_token_first_wins [mediaEvent [1]] [TwilioEvent.start (some "B")]
    "SID123" (by decide) (by decide)

/-- The frame loop of `try_send_goodbye`
(`for i in range(0, len(data), FRAME_BYTES): frame = data[i:i+FRAME_BYTES]`),
written with a structural fuel argument: each iteration consumes at least one
byte, so `d.length` iterations suffice.  The `if not frame: break` guard never
fires, as every slice starting inside the data is nonempty. -/
def chunkLoop : Nat → List Nat → List (List Nat)
  | 0, _ => []
  | n + 1, d =>
    if d = [] then []
    else List.take FRAME_BYTES d :: chunkLoop n (List.drop FRAME_BYTES d)

/-- The 160-byte frames `try_send_goodbye` slices a farewell asset into. -/
def frameChunks (d : List Nat) : List (List Nat) :=
  chunkLoop d.length d

theorem chunkLoop_fuel (n m : Nat) (d : List Nat)
    (hn : d.length ≤ n) (hm : d.length ≤ m) :
    chunkLoop n d = chunkLoop m d := by
  induction n generalizing m d with
  | zero =>
    have hd : d = [] := List.eq_nil_of_length_eq_zero (Nat.le_zero.mp hn)
    subst hd
    cases m with
    | zero => rfl
    | succ m => simp [chunkLoop]
  | succ n ih =>
    cases m with
    | zero =>
      have hd : d = [] := List.eq_nil_of_length_eq_zero (Nat.le_zero.mp hm)
      subst hd
      simp [chunkLoop]
    | succ m =>
      by_cases hd : d = []
      · simp [chunkLoop, hd]
      · have hlen : 0 < d.length := List.length_pos.mpr hd
        have hdl : (List.drop FRAME_BYTES d).length ≤ n := by
          simp only [List.length_drop]
          simp [FRAME_BYTES] at hn ⊢
          omega
        have hdm : (List.drop FRAME_BYTES d).length ≤ m := by
          simp only [List.length_drop]
          simp [FRAME_BYTES] at hm ⊢
          omega
        simp only [chunkLoop, hd, if_false]
        rw [ih m (List.drop FRAME_BYTES d) hdl hdm]

theorem frameChunks_nil : frameChunks [] = [] := rfl

theorem frameChunks_cons {d : List Nat} (hd : d ≠ []) :
    frameChunks d =
      List.take FRAME_BYTES d :: frameChunks (List.drop FRAME_BYTES d) := by
  have hlen : 0 < d.length := List.length_pos.mpr hd
  obtain ⟨n, hn⟩ : ∃ n, d.length = n + 1 := ⟨d.length - 1, by omega⟩
  have hdl : (List.drop FRAME_BYTES d).length ≤ n := by
    simp only [List.length_drop]
    simp [FRAME_BYTES]
    omega
  unfold frameChunks
  rw [hn]
  simp only [chunkLoop, hd, if_false]
  rw [chunkLoop_fuel n (List.drop FRAME_BYTES d).length (List.drop FRAME_BYTES d) hdl le_rfl]

/-- The goodbye frame slices reassemble the asset byte-for-byte: nothing is
dropped or padded, and order is preserved. -/
theorem frameChunks_flatten (d : List Nat) : (frameChunks d).flatten = d := by
  by_cases hd : d = []
  · subst hd; rfl
  · rw [frameChunks_cons hd]
    have ih := frameChunks_flatten (List.drop FRAME_BYTES d)
    simp only [List.flatten_cons, ih]
    exact List.take_append_drop FRAME_BYTES d
termination_by d.length
decreasing_by
  have hlen : 0 < d.length := List.length_pos.mpr hd
  simp only [List.length_drop]
  simp [FRAME_BYTES]
  omega

/-- Every goodbye frame is nonempty and at most `FRAME_BYTES` long. -/
theorem frameChunks_sizes (d : List Nat) :
    ∀ f ∈ frameChunks d, f ≠ [] ∧ f.length ≤ FRAME_BYTES := by
  by_cases hd : d = []
  · subst hd; intro f hf; simp [frameChunks_nil] at hf
  · rw [frameChunks_cons hd]
    intro f hf
    rcases List.mem_cons.mp hf with hf | hf
    · subst hf
      constructor
      · rw [Ne, List.take_eq_nil_iff]
        simp [FRAME_BYTES, hd]
      · simp [List.length_take]
    · exact frameChunks_sizes (List.drop FRAME_BYTES d) f hf
termination_by d.length
decreasing_by
  have hlen : 0 < d.length := List.length_pos.mpr hd
  simp only [List.length_drop]
  simp [FRAME_BYTES]
  omega

/-- Every goodbye frame except possibly the final one has exactly
`FRAME_BYTES` bytes (the tail frame may be shorter). -/
theorem frameChunks_dropLast (d : List Nat) :
    ∀ f ∈ (frameChunks d).dropLast, f.length = FRAME_BYTES := by
  by_cases hd : d = []
  · subst hd; intro f hf; simp [frameChunks_nil] at hf
  · rw [frameChunks_cons hd]
    by_cases hdrop : List.drop FRAME_BYTES d = []
    · rw [hdrop, frameChunks_nil]
      intro f hf
      simp at hf
    · have h160 : FRAME_BYTES < d.length := by
        by_contra hle
        exact hdrop (List.drop_eq_nil_of_le (Nat.le_of_not_lt hle))
      have hne : frameChunks (List.drop FRAME_BYTES d) ≠ [] := by
        rw [frameChunks_cons hdrop]
        simp
      obtain ⟨y, l', hl⟩ := List.exists_cons_of_ne_nil hne
      rw [hl]
      intro f hf
      rw [List.dropLast_cons₂] at hf
      rcases List.mem_cons.mp hf with hf | hf
      · subst hf
        simp [List.length_take]
        omega
      · rw [← hl] at hf
        exact frameChunks_dropLast (List.drop FRAME_BYTES d) f hf
termination_by d.length
decreasing_by
  have hlen : 0 < d.length := List.length_pos.mpr hd
  simp only [List.length_drop]
  simp [FRAME_BYTES]
  omega

/-- Python `path.lower().endswith(".wav")` (ASCII case folding, as file
extensions are ASCII). -/
def endsWithWav (path : String) : Bool :=
  List.isSuffixOf (String.toList ".wav") (List.map Char.toLower (String.toList path))

/-- The asset bytes after the naive WAV-header handling of `try_send_goodbye`
(line 189-190): the first 44 bytes are stripped exactly when the path ends in
`.wav` case-insensitively and the file is longer than 44 bytes. -/
def goodbyeData (path : String) (data : List Nat) : List Nat :=
  if endsWithWav path = true ∧ 44 < data.length then List.drop 44 data else data

/-- The frames `try_send_goodbye` emits for a given asset path and content. -/
def try_send_goodbye_frames (path : String) (data : List Nat) : List (List Nat) :=
  frameChunks (goodbyeData path data)

/-- One step of the farewell playout: a socket send or the 20 ms pacing sleep
(`await asyncio.sleep(0.020)`). -/
inductive GoodbyeAction
  | send (o : TwilioOut)
  | sleep20ms
deriving DecidableEq

/-- `try_send_goodbye` (lines 177-206) on its success path: nothing when no
asset path is configured; otherwise each frame as a `media` envelope followed
by the 20 ms pacing sleep, finished by the named `mark` event. -/
def try_send_goodbye (streamsid path : String) (data : List Nat) :
    List GoodbyeAction :=
  if path = "" then []
  else
    ((try_send_goodbye_frames path data).map fun f =>
        [GoodbyeAction.send (TwilioOut.media streamsid f), GoodbyeAction.sleep20ms]).flatten ++
      [GoodbyeAction.send (TwilioOut.mark streamsid "server_goodbye_done")]

/-- C10: the farewell playout strips exactly the first 44 bytes iff the asset
path ends in `.wav` case-insensitively and the asset exceeds 44 bytes —
otherwise every byte is emitted unmodified — and slices the result into
nonempty frames of at most `FRAME_BYTES` bytes, all of exactly `FRAME_BYTES`
except possibly the final shorter tail, reassembling the (possibly stripped)
asset byte-for-byte. -/
theorem goodbye_frame_layout (path : String) (data : List Nat) :
    (¬ (endsWithWav path = true ∧ 44 < data.length) →
      (try_send_goodbye_frames path data).flatten = data) ∧
    ((endsWithWav path = true ∧ 44 < data.length) →
      (try_send_goodbye_frames path data).flatten = List.drop 44 data) ∧
    (∀ f ∈ try_send_goodbye_frames path data, f ≠ [] ∧ f.length ≤ FRAME_BYTES) ∧
    (∀ f ∈ (try_send_goodbye_frames path data).dropLast, f.length = FRAME_BYTES) := by
  refine ⟨?_, ?_, ?_, ?_⟩
  · intro h
    unfold try_send_goodbye_frames goodbyeData
    rw [if_neg h]
    exact frameChunks_flatten data
  · intro h
    unfold try_send_goodbye_frames goodbyeData
    rw [if_pos h]
    exact frameChunks_flatten (List.drop 44 data)
  · exact frameChunks_sizes (goodbyeData path data)
  · exact frameChunks_dropLast (goodbyeData path data)

/-- Witness for C10 at a concrete input: a 47-byte `.WAV`-named asset is
stripped to 3 bytes and emitted as one short tail frame; the same bytes under
a non-wav name are emitted unstripped. -/
theorem goodbye_frame_layout_w :
    ((endsWithWav "clip.WAV" = true ∧
        44 < (List.replicate 44 9 ++ [1, 2, 3] : List Nat).length) →
      (try_send_goodbye_frames "clip.WAV" (List.replicate 44 9 ++ [1, 2, 3])).flatten =
        List.drop 44 (List.replicate 44 9 ++ [1, 2, 3])) ∧
    (¬ (endsWithWav "clip.ulaw" = true ∧
        44 < (List.replicate 44 9 ++ [1, 2, 3] : List Nat).length) →
      (try_send_goodbye_frames "clip.ulaw" (List.replicate 44 9 ++ [1, 2, 3])).flatten =
        List.replicate 44 9 ++ [1, 2, 3]) ∧
    endsWithWav "clip.WAV" = true ∧ ¬ endsWithWav "clip.ulaw" = true :=
  ⟨(goodbye_frame_layout "clip.WAV" (List.replicate 44 9 ++ [1, 2, 3])).2.1,
   (goodbye_frame_layout "clip.ulaw" (List.replicate 44 9 ++ [1, 2, 3])).1,
   by decide, by decide⟩

/-- The teardown branch of `twilio_handler` (lines 230-239): when the
process-wide stop signal is set, try `streamsid_queue.get_nowait()` — on
`QueueEmpty` the stream id stays `None` — and play the farewell only when a
(truthy) stream id was obtained. -/
def twilio_handler_teardown (stopEventSet : Bool) (queueRemaining : List String)
    (path : String) (data : List Nat) : List GoodbyeAction :=
  if stopEventSet then
    match queueRemaining.head? with
    | some sid => if sid ≠ "" then try_send_goodbye sid path data else []
    | none => []
  else []

/-- Content of `streamsid_queue` at teardown time: `sts_receiver` opens with a
single `await streamsid_queue.get()`, which removes the first enqueued token
as soon as one is published, so in any run where the receiver reached its
relay loop the queue retains only the tokens after the first. -/
def handoffQueueAtTeardown (evs : List TwilioEvent) : List String :=
  List.drop 1 (twilio_receiver evs).sids

/-- C5 (code bug): in the ordinary session — one `start` publishing the
stream token, which the Agent Event Receiver then consumes from the one-shot
queue — the teardown's `get_nowait()` finds the queue empty, so even with the
stop signal set, a farewell asset configured, and the StreamToken known,
`try_send_goodbye` is never invoked and no farewell media or mark is emitted;
the third conjunct shows the playout would be nonempty had the known token
been used. -/
theorem farewell_skipped_at_shutdown :
    handoffQueueAtTeardown [TwilioEvent.start (some "SID123"), mediaEvent [1, 2, 3]] = [] ∧
    twilio_handler_teardown true
        (handoffQueueAtTeardown [TwilioEvent.start (some "SID123"), mediaEvent [1, 2, 3]])
        "goodbye.ulaw" [5, 5, 5] = [] ∧
    try_send_goodbye "SID123" "goodbye.ulaw" [5, 5, 5] ≠ [] := by
  decide

/-- State of one of the three per-session tasks from the supervisor's
viewpoint. -/
inductive TaskState
  | running
  | doneOk
  | doneErr
deriving DecidableEq

/-- The `return_when` policies of `asyncio.wait` used or claimed here. -/
inductive WaitPolicy
  | firstCompleted
  | firstException
deriving DecidableEq

def TaskState.isDone : TaskState → Bool
  | .running => false
  | _ => true

def TaskState.isErr : TaskState → Bool
  | .doneErr => true
  | _ => false

/-- Return condition of Python's `asyncio.wait` (documented stdlib semantics):
`FIRST_COMPLETED` returns once any task finishes; `FIRST_EXCEPTION` returns
once any task finishes by raising, and otherwise only when all tasks have
completed. -/
def asyncioWaitReturns (p : WaitPolicy) (ts : List TaskState) : Bool :=
  match p with
  | .firstCompleted => ts.any TaskState.isDone
  | .firstException => ts.any TaskState.isErr || ts.all TaskState.isDone

/-- The supervisor of `twilio_handler` (line 222): the sibling tasks are
cancelled exactly when its
`asyncio.wait(tasks, return_when=asyncio.FIRST_EXCEPTION)` call returns and
the `finally` block runs. -/
def twilio_handler_cancels (ts : List TaskState) : Bool :=
  asyncioWaitReturns WaitPolicy.firstException ts

/-- C3 (code bug): with Media Ingest finished normally (the telephony `stop`
event) and the other two tasks still running, the supervisor's
`FIRST_EXCEPTION` wait does not return, so no sibling is cancelled and the
session does not reach CLOSED — the claimed behaviour is that of
`FIRST_COMPLETED`, which does return on this state; only an exceptional
termination (third conjunct) triggers cancellation as coded. -/
theorem stop_event_leaves_tasks_running :
    twilio_handler_cancels [TaskState.doneOk, TaskState.running, TaskState.running] = false ∧
    asyncioWaitReturns WaitPolicy.firstCompleted
        [TaskState.doneOk, TaskState.running, TaskState.running] = true ∧
    twilio_handler_cancels [TaskState.doneErr, TaskState.running, TaskState.running] = true := by
  decide

end VoiceBridge
